import Mathlib

/-!
Verification of the nori-tests containerized test runner against its
design specification.  The definitions below are shallow embeddings of
the TypeScript sources:

  * `src/docker/container.ts`  — `ContainerManager.runCommand`,
    `ContainerManager.runCommandStreaming` (bind construction, output
    accumulation, the chunk-queue bridge of the async generator, and the
    cleanup / removal logic);
  * `src/utils/status-file.ts` — `parseStatusFile`;
  * `src/utils/auth.ts`        — `getAuthMethod`, `getAuthConfig`;
  * `src/runner/test-runner.ts`— `runTests`, `runSingleTest`.

JavaScript-runtime behaviour that the code relies on (truthiness of
strings, `typeof` on parsed JSON values, property lookup on objects) is
modelled explicitly by small helper functions named `js...`.
-/

/-- Tag of an output chunk: which standard stream it came from
(`StreamChunk.type` in `src/types.ts`). -/
inductive ChunkType where
  | stdout
  | stderr
deriving DecidableEq, Repr

/-- `StreamChunk` from `src/types.ts`: one demultiplexed output event,
carrying its origin tag and the decoded text fragment. -/
structure StreamChunk where
  type : ChunkType
  data : String
deriving DecidableEq, Repr

/-- `MountConfig` from `src/docker/container.ts`.  The optional
`readOnly` flag defaults to `false` (read-write), matching the
`mount.readOnly ? 'ro' : 'rw'` test in the source. -/
structure MountConfig where
  hostPath : String
  containerPath : String
  readOnly : Bool := false
deriving DecidableEq, Repr

/-- `CommandResult` from `src/docker/container.ts`. -/
structure CommandResult where
  exitCode : Int
  stdout : String
  stderr : String
deriving DecidableEq, Repr

/-- The Docker-socket bind that `runCommand` and `runCommandStreaming`
both place at the head of the `binds` array. -/
def dockerSocketBind : String := "/var/run/docker.sock:/var/run/docker.sock"

/-- The bind string built for one caller mount:
`hostPath:containerPath:mode` with mode `ro` or `rw`
(`runCommand`, loop over `options.mounts`). -/
def bindOfMount (m : MountConfig) : String :=
  m.hostPath ++ ":" ++ m.containerPath ++ ":" ++ (if m.readOnly then "ro" else "rw")

/-- The `binds` array as built by `runCommand`: the Docker socket bind
first, then one bind string per caller mount, in order. -/
def buildBinds (mounts : List MountConfig) : List String :=
  dockerSocketBind :: mounts.map bindOfMount

/-- The `binds` array as built by `runCommandStreaming`; the source
repeats the same construction verbatim in the streaming method. -/
def buildBindsStreaming (mounts : List MountConfig) : List String :=
  dockerSocketBind :: mounts.map bindOfMount

/-- The `try { await container.remove({force:true}) } catch (_e) {}`
block shared by both execution modes: a failing removal is caught and
ignored, a successful one passes through. -/
def tryRemoveIgnoringErrors (removeResult : Except String Unit) : Except String Unit :=
  match removeResult with
  | .ok u => .ok u
  | .error _ => .ok ()

/-- Tail of `runCommand` after `container.wait()` has resolved: unless
`keepContainer` is set, attempt removal through the swallowing
try/catch, then return the captured `CommandResult`.  The `Bool`
records whether a removal was attempted. -/
def finishRunCommand (keepContainer : Bool) (removeResult : Except String Unit)
    (result : CommandResult) : Except String CommandResult × Bool :=
  if keepContainer then
    (.ok result, false)
  else
    match tryRemoveIgnoringErrors removeResult with
    | .ok _ => (.ok result, true)
    | .error e => (.error e, true)

/-- Tail of `runCommandStreaming` after the chunk loop: same retention
policy, and the generator's return value is `waitResult.StatusCode`. -/
def finishRunCommandStreaming (keepContainer : Bool) (removeResult : Except String Unit)
    (statusCode : Int) : Except String Int × Bool :=
  if keepContainer then
    (.ok statusCode, false)
  else
    match tryRemoveIgnoringErrors removeResult with
    | .ok _ => (.ok statusCode, true)
    | .error e => (.error e, true)

/-- The accumulation performed by `runCommand`'s two `data` handlers:
`stdout += chunk.toString()` / `stderr += chunk.toString()`, folded
over the chunks in delivery order. -/
def accumOutput (delivered : List StreamChunk) : String × String :=
  delivered.foldl
    (fun acc c =>
      match c.type with
      | .stdout => (acc.1 ++ c.data, acc.2)
      | .stderr => (acc.1, acc.2 ++ c.data))
    ("", "")

/-- The `CommandResult` produced by `runCommand` for a given delivered
chunk sequence and wait status code. -/
def runCommandResult (delivered : List StreamChunk) (statusCode : Int) : CommandResult :=
  { exitCode := statusCode
    stdout := (accumOutput delivered).1
    stderr := (accumOutput delivered).2 }

/-! ### The chunk bridge of `runCommandStreaming`

The async generator keeps three pieces of local state: the array
`chunkQueue`, the flag `streamEnded` (set by `container.wait().then`),
and the status code that `then` hands back.  We model one streaming
execution as a sequence of atomic events interleaving the producers
(the two `data` handlers and the wait continuation) with the consumer
loop iterations, folding a step function over the event list. -/

/-- One atomic event of a streaming execution:
  * `arrive c`   — a `data` handler fires and pushes `c` onto the queue;
  * `waitDone k` — the `container.wait()` continuation runs, setting
    `streamEnded` and recording status code `k` (a promise resolves at
    most once, so a second `waitDone` has no effect);
  * `consume`    — the generator loop runs once: pop-and-yield if the
    queue is non-empty, finish if it is empty with `streamEnded` set,
    otherwise suspend on `resolveWaiting` (no state change). -/
inductive StreamEvent where
  | arrive (c : StreamChunk)
  | waitDone (k : Int)
  | consume
deriving DecidableEq, Repr

/-- State of the generator of `runCommandStreaming`: the pending
`chunkQueue`, the `streamEnded` flag, the status code stored by the
wait continuation, plus two observers — the list of chunks yielded so
far and the generator's return value once it has finished. -/
structure GenState where
  chunkQueue : List StreamChunk
  streamEnded : Bool
  exitCode : Int
  yielded : List StreamChunk
  returned : Option Int
deriving DecidableEq, Repr

/-- Initial generator state, before any handler has fired. -/
def GenState.init : GenState :=
  { chunkQueue := [], streamEnded := false, exitCode := 0
    yielded := [], returned := none }

/-- One atomic step of the streaming execution. -/
def streamingStep (s : GenState) (e : StreamEvent) : GenState :=
  match e with
  | .arrive c =>
      { s with chunkQueue := s.chunkQueue ++ [c] }
  | .waitDone k =>
      if s.streamEnded then s
      else { s with streamEnded := true, exitCode := k }
  | .consume =>
      match s.returned with
      | some _ => s
      | none =>
        match s.chunkQueue with
        | c :: rest =>
            { s with chunkQueue := rest, yielded := s.yielded ++ [c] }
        | [] =>
            if s.streamEnded then { s with returned := some s.exitCode } else s

/-- A whole streaming execution: fold the step function over the event
interleaving, starting from the initial state. -/
def runStreaming (events : List StreamEvent) : GenState :=
  events.foldl streamingStep GenState.init

/-- The chunks delivered by the demultiplexer during an execution, in
arrival order. -/
def arrivals : List StreamEvent → List StreamChunk
  | [] => []
  | .arrive c :: rest => c :: arrivals rest
  | _ :: rest => arrivals rest

/-- The status code reported by the container wait — the code of the
first `waitDone` event, if any (the promise resolves at most once). -/
def firstWaitCode : List StreamEvent → Option Int
  | [] => none
  | .waitDone k :: _ => some k
  | _ :: rest => firstWaitCode rest

/-- Concatenation of the `data` fields of the chunks carrying a given
tag, in order — the spec's description of reassembling one stream from
the yielded chunk sequence. -/
def concatChunks (t : ChunkType) : List StreamChunk → String
  | [] => ""
  | c :: rest => (if c.type = t then c.data else "") ++ concatChunks t rest

/-! ### `src/utils/status-file.ts` — `parseStatusFile`

`parseStatusFile` runs `JSON.parse` on the trimmed content and then
inspects the parsed value.  We embed the parsed value as an abstract
JSON tree (`Json`); a failed `JSON.parse` is represented by `none`,
paired with the exception message that the source interpolates into its
own error.  The `typeof parsed !== 'object'` test and the `'status' in
obj` property test follow JavaScript semantics, modelled by
`jsTypeofObject` and `jsGetField`. -/

/-- Abstract JSON value, the possible results of `JSON.parse`. -/
inductive Json where
  | null
  | bool (b : Bool)
  | num (n : Int)
  | str (s : String)
  | arr (elems : List Json)
  | obj (fields : List (String × Json))

/-- `typeof v === 'object'` for a parsed JSON value: true for objects,
arrays and `null`, false for numbers, strings and booleans. -/
def jsTypeofObject : Json → Bool
  | .null => true
  | .arr _ => true
  | .obj _ => true
  | _ => false

/-- Whether the parsed value is JavaScript `null`. -/
def Json.isNull : Json → Bool
  | .null => true
  | _ => false

/-- Property lookup on a parsed object's field list; with duplicate
keys `JSON.parse` keeps the last occurrence, so the last match wins. -/
def lookupLast (fields : List (String × Json)) (key : String) : Option Json :=
  match fields with
  | [] => none
  | (k, v) :: rest =>
    match lookupLast rest key with
    | some v2 => some v2
    | none => if k = key then some v else none

/-- `obj[key]` / `key in obj` on a parsed JSON value: only genuine
objects have string-keyed fields (a parsed array has no `status`
property). -/
def jsGetField (v : Json) (key : String) : Option Json :=
  match v with
  | .obj fields => lookupLast fields key
  | _ => none

/-- JavaScript stringification of a parsed JSON value, as performed by
the template literal in the invalid-status error message: `null` and
booleans and numbers print their literal form, strings print verbatim,
arrays join their elements with `,` (with `null` elements printing as
the empty string), objects print `[object Object]`. -/
def jsDisplay : Json → String
  | .null => "null"
  | .bool b => if b then "true" else "false"
  | .num n => toString n
  | .str s => s
  | .obj _ => "[object Object]"
  | .arr elems => jsDisplayList elems
where
  /-- `Array.prototype.join(',')` over `String(elem)`, except that a
  `null` element joins as the empty string. -/
  jsDisplayList : List Json → String
  | [] => ""
  | [e] => jsDisplayElem e
  | e :: rest => jsDisplayElem e ++ "," ++ jsDisplayList rest
  /-- `String(elem)` inside a join: `null` becomes empty. -/
  jsDisplayElem : Json → String
  | .null => ""
  | e => jsDisplay e

/-- `TestStatus` from `src/types.ts`. -/
inductive TestStatus where
  | success
  | failure
deriving DecidableEq, Repr

/-- `StatusFile` from `src/types.ts`. -/
structure StatusFile where
  status : TestStatus
  error : Option String := none
deriving DecidableEq, Repr

/-- The `VALID_STATUSES.includes` membership test of
`src/utils/status-file.ts`. -/
def validStatusString (s : String) : Bool :=
  s = "success" || s = "failure"

/-- The error message for an invalid `status` value, with the value
stringified the way the source's template literal does. -/
def invalidStatusMsg (v : Json) : String :=
  "Invalid status value: \"" ++ jsDisplay v ++ "\". Must be \"success\" or \"failure\""

/-- `parseStatusFile` from `src/utils/status-file.ts`.  `parsed` is the
outcome of `JSON.parse` on the trimmed content (`none` when it threw,
with `jsonErrMsg` the exception's message). -/
def parseStatusFile (parsed : Option Json) (jsonErrMsg : String) : Except String StatusFile :=
  match parsed with
  | none => .error ("Invalid JSON in status file: " ++ jsonErrMsg)
  | some p =>
    if !jsTypeofObject p || p.isNull then
      .error "Status file must contain a JSON object"
    else
      match jsGetField p "status" with
      | none => .error "Status file missing required \"status\" field"
      | some v =>
        match v with
        | .str s =>
          if validStatusString s then
            .ok { status := if s = "success" then .success else .failure
                  error :=
                    match jsGetField p "error" with
                    | some (.str e) => some e
                    | _ => none }
          else .error (invalidStatusMsg v)
        | _ => .error (invalidStatusMsg v)

/-- The claim's acceptance condition, written from the spec's words:
the content is valid JSON, the document is an object (in the sense the
code tests, JavaScript `typeof`), it has a `status` field, and that
field is the string `success` or `failure`. -/
def statusFileAccepted (parsed : Option Json) : Bool :=
  match parsed with
  | none => false
  | some p =>
    jsTypeofObject p && !p.isNull &&
      (match jsGetField p "status" with
       | some (.str s) => validStatusString s
       | _ => false)

/-! ### `src/utils/auth.ts` — `getAuthMethod`, `getAuthConfig`

The environment is abstracted by the two inputs the source reads:
`process.env.ANTHROPIC_API_KEY` (a string or `undefined`) and the
result of `findClaudeSessionFile()` (a path string or `null`).  The
source branches on JavaScript truthiness of these values, modelled by
`jsTruthy`: `undefined`/`null` and the empty string are falsy. -/

/-- JavaScript truthiness of `string | null | undefined`. -/
def jsTruthy : Option String → Bool
  | none => false
  | some s => !s.isEmpty

/-- `AuthMethod` from `src/utils/auth.ts`. -/
inductive AuthMethod where
  | apiKey (key : String) (hasBoth : Bool)
  | session (sessionFile : String) (hasBoth : Bool)
  | noAuth
deriving DecidableEq, Repr

/-- `AuthConfig` from `src/utils/auth.ts`: the container environment
mapping and the optional session file to copy in before start. -/
structure AuthConfig where
  env : List (String × String)
  sessionFileToCopy : Option String
deriving DecidableEq, Repr

/-- `getAuthMethod` from `src/utils/auth.ts`: deterministic selection
between the API key and the session file, with `hasBoth` advising when
both sources are present. -/
def getAuthMethod (preferSession : Bool) (apiKey : Option String)
    (sessionFile : Option String) : AuthMethod :=
  let hasBoth := jsTruthy apiKey && jsTruthy sessionFile
  if preferSession then
    if jsTruthy sessionFile then .session (sessionFile.getD "") hasBoth
    else if jsTruthy apiKey then .apiKey (apiKey.getD "") hasBoth
    else .noAuth
  else
    if jsTruthy apiKey then .apiKey (apiKey.getD "") hasBoth
    else if jsTruthy sessionFile then .session (sessionFile.getD "") hasBoth
    else .noAuth

/-- `getAuthConfig` from `src/utils/auth.ts`: an API key becomes an
environment entry with no session file; a session method becomes an
empty environment with the file to copy; no method throws. -/
def getAuthConfig (m : AuthMethod) : Except String AuthConfig :=
  match m with
  | .apiKey k _ => .ok { env := [("ANTHROPIC_API_KEY", k)], sessionFileToCopy := none }
  | .session sf _ => .ok { env := [], sessionFileToCopy := some sf }
  | .noAuth => .error "No authentication method available"

/-! ### `src/runner/test-runner.ts` — `runSingleTest`, `runTests`

`runSingleTest` is embedded from the point where the container run has
returned (`_result` obtained, the container has exited): the branch on
`fs.existsSync(statusFilePath)` is abstracted by an `Option` holding,
when the file exists, the `JSON.parse` outcome of its content.  The
mount list it passes to `runCommand` is embedded separately. -/

/-- The error message `runSingleTest` returns when no status file
exists after container exit. -/
def noStatusFileError : String :=
  "No status file was created. Claude may not have completed the task."

/-- The per-test fields `runSingleTest` produces (a `TestResult`
without the `testFile` name, which `runTests` adds). -/
structure SingleTestResult where
  status : TestStatus
  error : Option String
  durationMs : Nat
deriving DecidableEq, Repr

/-- The tail of `runSingleTest` after the container has exited: when a
status file exists its content is parsed (a parse error propagates as a
thrown exception, `.error`); when none exists the result is an
implicit failure carrying `noStatusFileError`. -/
def runSingleTestOutcome (statusFile : Option (Option Json × String))
    (durationMs : Nat) : Except String SingleTestResult :=
  match statusFile with
  | some (parsed, jsonErrMsg) =>
    match parseStatusFile parsed jsonErrMsg with
    | .ok sf => .ok { status := sf.status, error := sf.error, durationMs := durationMs }
    | .error e => .error e
  | none => .ok { status := .failure, error := some noStatusFileError, durationMs := durationMs }

/-- The mount list `runSingleTest` passes to `runCommand`: the working
directory where nori-tests was invoked, mounted at the fixed container
path `/workspace`. -/
def runSingleTestMounts (workDir : String) : List MountConfig :=
  [{ hostPath := workDir, containerPath := "/workspace" }]

/-- The spec's mount convention, written from its words: every mount
entry the orchestrator passes has container path equal to host path. -/
def mountsHostEqualsContainer (mounts : List MountConfig) : Bool :=
  mounts.all (fun m => m.containerPath = m.hostPath)

/-- `TestResult` from `src/types.ts`. -/
structure TestResult where
  testFile : String
  status : TestStatus
  error : Option String := none
  durationMs : Nat
deriving DecidableEq, Repr

/-- `TestReport` from `src/types.ts`. -/
structure TestReport where
  totalTests : Nat
  passed : Nat
  failed : Nat
  results : List TestResult
  durationMs : Nat
deriving DecidableEq, Repr

/-- Outcome of one `runSingleTest` call as observed by `runTests`'s
try/catch: either the returned fields, or a thrown exception's message
together with the duration measured at catch time. -/
abbrev TestOutcome := Except (String × Nat) SingleTestResult

/-- The `TestResult` `runTests` records for one discovered test: the
returned fields on success, or a failure carrying the exception
message when `runSingleTest` threw. -/
def resultOfOutcome (testName : String) (o : TestOutcome) : TestResult :=
  match o with
  | .ok r => { testFile := testName, status := r.status, error := r.error
               durationMs := r.durationMs }
  | .error (msg, d) => { testFile := testName, status := .failure, error := some msg
                         durationMs := d }

/-- Whether a `TestResult` counts into `passed`
(`r.status === 'success'`). -/
def countsPassed (r : TestResult) : Bool := r.status = .success

/-- Whether a `TestResult` counts into `failed`
(`r.status === 'failure'`). -/
def countsFailed (r : TestResult) : Bool := r.status = .failure

/-- The dry-run result `runTests` records for a discovered test file. -/
def dryRunResult (testName : String) : TestResult :=
  { testFile := testName, status := .success, durationMs := 0 }

/-- `runTests` from `src/runner/test-runner.ts`, embedded over the
discovered test names paired (outside dry-run) with each test's
outcome; `totalDurationMs` stands for the wall-clock measurement. -/
def runTests (tests : List (String × TestOutcome)) (dryRun : Bool)
    (totalDurationMs : Nat) : TestReport :=
  if dryRun then
    { totalTests := tests.length
      passed := tests.length
      failed := 0
      results := tests.map (fun t => dryRunResult t.1)
      durationMs := totalDurationMs }
  else
    let results := tests.map (fun t => resultOfOutcome t.1 t.2)
    { totalTests := tests.length
      passed := (results.filter countsPassed).length
      failed := (results.filter countsFailed).length
      results := results
      durationMs := totalDurationMs }

/-- The property a dry-run result row must satisfy: reported as
`success` with `durationMs` zero. -/
def isDryRunRow (r : TestResult) : Bool :=
  r.status = .success && r.durationMs = 0

/-! ### Helper lemmas about the streaming bridge -/

/-- Once `streamEnded` is set, every later event leaves both the flag
and the recorded status code unchanged (the wait promise resolves at
most once, and the consumer never writes them). -/
theorem foldl_step_ended (evs : List StreamEvent) :
    ∀ s : GenState, s.streamEnded = true →
      (evs.foldl streamingStep s).streamEnded = true
      ∧ (evs.foldl streamingStep s).exitCode = s.exitCode := by
  induction evs with
  | nil => intro s hs; exact ⟨hs, rfl⟩
  | cons e rest ih =>
    intro s hs
    have hstep : (streamingStep s e).streamEnded = true
        ∧ (streamingStep s e).exitCode = s.exitCode := by
      cases e with
      | arrive c => exact ⟨hs, rfl⟩
      | waitDone k => simp [streamingStep, hs]
      | consume =>
        cases hr : s.returned with
        | some c => simp [streamingStep, hr, hs]
        | none =>
          cases hq : s.chunkQueue with
          | cons c r => simp [streamingStep, hr, hq, hs]
          | nil => simp [streamingStep, hr, hq, hs]
    have := ih (streamingStep s e) hstep.1
    exact ⟨this.1, this.2.trans hstep.2⟩

/-- Starting with `streamEnded` unset, the final flag records whether a
`waitDone` event occurred, and the final status code is the code of the
first `waitDone` (or the starting code if none occurred). -/
theorem foldl_step_wait_code (evs : List StreamEvent) :
    ∀ s : GenState, s.streamEnded = false →
      (evs.foldl streamingStep s).streamEnded = (firstWaitCode evs).isSome
      ∧ (evs.foldl streamingStep s).exitCode = (firstWaitCode evs).getD s.exitCode := by
  induction evs with
  | nil => intro s hs; simp [firstWaitCode, hs]
  | cons e rest ih =>
    intro s hs
    cases e with
    | arrive c =>
      have := ih { s with chunkQueue := s.chunkQueue ++ [c] } hs
      simpa [streamingStep, firstWaitCode] using this
    | waitDone k =>
      have hstep : streamingStep s (.waitDone k)
          = { s with streamEnded := true, exitCode := k } := by
        simp [streamingStep, hs]
      have := foldl_step_ended rest { s with streamEnded := true, exitCode := k } rfl
      simp [List.foldl, hstep, firstWaitCode, this.1, this.2]
    | consume =>
      have hstep : (streamingStep s .consume).streamEnded = false
          ∧ (streamingStep s .consume).exitCode = s.exitCode := by
        cases hr : s.returned with
        | some c => simp [streamingStep, hr, hs]
        | none =>
          cases hq : s.chunkQueue with
          | cons c r => simp [streamingStep, hr, hq, hs]
          | nil => simp [streamingStep, hr, hq, hs]
      have := ih (streamingStep s .consume) hstep.1
      simp [List.foldl, firstWaitCode, this.1, this.2, hstep.2]

/-- The generator-return invariant: whenever the fold has recorded a
return value, the `streamEnded` flag is set and the return value is the
stored status code. -/
theorem foldl_step_returned (evs : List StreamEvent) :
    ∀ s : GenState,
      (∀ c : Int, s.returned = some c → s.streamEnded = true ∧ s.exitCode = c) →
      ∀ c : Int, (evs.foldl streamingStep s).returned = some c →
        (evs.foldl streamingStep s).streamEnded = true
        ∧ (evs.foldl streamingStep s).exitCode = c := by
  induction evs with
  | nil => intro s hs; exact hs
  | cons e rest ih =>
    intro s hs
    refine ih (streamingStep s e) ?_
    intro c hc
    cases e with
    | arrive d =>
      have := hs c (by simpa [streamingStep] using hc)
      simpa [streamingStep] using this
    | waitDone k =>
      by_cases he : s.streamEnded = true
      · have := hs c (by simpa [streamingStep, he] using hc)
        simpa [streamingStep, he] using this
      · have he' : s.streamEnded = false := by
          cases h : s.streamEnded
          · rfl
          · exact absurd h he
        have hc' : s.returned = some c := by
          simpa [streamingStep, he'] using hc
        have := (hs c hc').1
        exact absurd this (by simp [he'])
    | consume =>
      cases hr : s.returned with
      | some d =>
        have := hs c (by simpa [streamingStep, hr] using hc)
        simpa [streamingStep, hr] using this
      | none =>
        cases hq : s.chunkQueue with
        | cons d r =>
          have : s.returned = some c := by simpa [streamingStep, hr, hq] using hc
          simp [hr] at this
        | nil =>
          by_cases he : s.streamEnded = true
          · have hcode : some s.exitCode = some c := by
              simpa [streamingStep, hr, hq, he] using hc
            have : s.exitCode = c := by simpa using hcode
            simp [streamingStep, hr, hq, he, this]
          · have he' : s.streamEnded = false := by
              cases h : s.streamEnded
              · rfl
              · exact absurd h he
            have : s.returned = some c := by
              simpa [streamingStep, hr, hq, he'] using hc
            simp [hr] at this

/-- The FIFO invariant of the chunk bridge: at every point of the fold,
the chunks yielded so far followed by the pending queue are exactly the
starting contents followed by the chunks that have arrived. -/
theorem foldl_step_fifo (evs : List StreamEvent) :
    ∀ s : GenState,
      (evs.foldl streamingStep s).yielded ++ (evs.foldl streamingStep s).chunkQueue
        = s.yielded ++ s.chunkQueue ++ arrivals evs := by
  induction evs with
  | nil => intro s; simp [arrivals]
  | cons e rest ih =>
    intro s
    cases e with
    | arrive c =>
      have := ih { s with chunkQueue := s.chunkQueue ++ [c] }
      simp only [List.foldl, streamingStep] at *
      simp [this, arrivals]
    | waitDone k =>
      by_cases he : s.streamEnded = true
      · have := ih s
        simp only [List.foldl, streamingStep, he, if_true] at *
        simpa [arrivals] using this
      · have he' : s.streamEnded = false := by
          cases h : s.streamEnded
          · rfl
          · exact absurd h he
        have := ih { s with streamEnded := true, exitCode := k }
        simp only [List.foldl, streamingStep, he', Bool.false_eq_true, if_false] at *
        simpa [arrivals] using this
    | consume =>
      cases hr : s.returned with
      | some d =>
        have := ih s
        simp only [List.foldl, streamingStep, hr] at *
        simpa [arrivals] using this
      | none =>
        cases hq : s.chunkQueue with
        | cons c r =>
          have := ih { s with chunkQueue := r, yielded := s.yielded ++ [c] }
          simp only [List.foldl, streamingStep, hr, hq] at *
          simp [this, arrivals]
        | nil =>
          by_cases he : s.streamEnded = true
          · have := ih { s with returned := some s.exitCode }
            simp only [List.foldl, streamingStep, hr, hq, he, if_true] at *
            simpa [arrivals, hq] using this
          · have he' : s.streamEnded = false := by
              cases h : s.streamEnded
              · rfl
              · exact absurd h he
            have := ih s
            simp only [List.foldl, streamingStep, hr, hq, he', Bool.false_eq_true, if_false] at *
            simpa [arrivals, hq] using this

/-- The buffered accumulation equals per-tag concatenation: folding the
two `+=` handlers over a delivery sequence yields exactly the
concatenation of the stdout-tagged data and of the stderr-tagged
data. -/
theorem accumOutput_eq_concat (delivered : List StreamChunk) :
    accumOutput delivered
      = (concatChunks .stdout delivered, concatChunks .stderr delivered) := by
  have general : ∀ (l : List StreamChunk) (a b : String),
      l.foldl
        (fun acc c =>
          match c.type with
          | .stdout => (acc.1 ++ c.data, acc.2)
          | .stderr => (acc.1, acc.2 ++ c.data))
        (a, b)
      = (a ++ concatChunks .stdout l, b ++ concatChunks .stderr l) := by
    intro l
    induction l with
    | nil => intro a b; simp [concatChunks]
    | cons c rest ih =>
      intro a b
      cases hty : c.type with
      | stdout =>
        simp only [List.foldl, hty]
        rw [ih]
        simp [concatChunks, hty, String.append_assoc]
      | stderr =>
        simp only [List.foldl, hty]
        rw [ih]
        simp [concatChunks, hty, String.append_assoc]
  have := general delivered "" ""
  simpa [accumOutput, String.empty_append] using this

/-- C1: For every streaming execution, the chunk sequence produced by
`runCommandStreaming` ends only when the container wait has reported
process exit and the internal chunk queue holds no unconsumed chunk,
and the generator's final return value equals the process exit code
reported by the wait: whenever the generator has returned value `c`,
the `streamEnded` flag set by the wait continuation is on and `c` is
the status code of the (first) wait report; and a consume step can
finish the generator only from a state whose queue is empty and whose
`streamEnded` flag is set, returning exactly the stored status code. -/
theorem streaming_ends_after_wait_and_drain
    (events : List StreamEvent) (c : Int) (s : GenState) :
    ((runStreaming events).returned = some c →
        (runStreaming events).streamEnded = true ∧ firstWaitCode events = some c)
    ∧ (s.returned = none → (streamingStep s .consume).returned = some c →
        s.chunkQueue = [] ∧ s.streamEnded = true ∧ c = s.exitCode) := by
  constructor
  · intro hret
    have hinv := foldl_step_returned events GenState.init
      (by intro d hd; simp [GenState.init] at hd) c hret
    have hwait := foldl_step_wait_code events GenState.init (by simp [GenState.init])
    refine ⟨hinv.1, ?_⟩
    have hsome : (firstWaitCode events).isSome = true := by
      rw [← hwait.1]; exact hinv.1
    rcases Option.isSome_iff_exists.mp hsome with ⟨k, hk⟩
    have : (runStreaming events).exitCode = k := by
      have := hwait.2
      rw [hk] at this
      simpa [runStreaming] using this
    rw [hk]
    have hc : (runStreaming events).exitCode = c := hinv.2
    rw [this] at hc
    exact congrArg some hc
  · intro hr hret
    cases hq : s.chunkQueue with
    | cons d r =>
      have : s.returned = some c := by simpa [streamingStep, hr, hq] using hret
      simp [hr] at this
    | nil =>
      by_cases he : s.streamEnded = true
      · have : some s.exitCode = some c := by
          simpa [streamingStep, hr, hq, he] using hret
        exact ⟨rfl, he, (Option.some_injective _ this).symm⟩
      · have he' : s.streamEnded = false := by
          cases h : s.streamEnded
          · rfl
          · exact absurd h he
        have : s.returned = some c := by
          simpa [streamingStep, hr, hq, he'] using hret
        simp [hr] at this

/-- Witness for C1 on a concrete execution: one stdout chunk arrives,
the wait reports code 7, and two consume steps drain and finish. -/
theorem streaming_ends_after_wait_and_drain_witness :
    ((runStreaming [StreamEvent.arrive ⟨ChunkType.stdout, "a"⟩, StreamEvent.waitDone 7,
          StreamEvent.consume, StreamEvent.consume]).streamEnded = true
      ∧ firstWaitCode [StreamEvent.arrive ⟨ChunkType.stdout, "a"⟩, StreamEvent.waitDone 7,
          StreamEvent.consume, StreamEvent.consume] = some 7)
    ∧ ((GenState.mk [] true 7 [] none).chunkQueue = []
      ∧ (GenState.mk [] true 7 [] none).streamEnded = true
      ∧ (7 : Int) = (GenState.mk [] true 7 [] none).exitCode) := by
  refine ⟨(streaming_ends_after_wait_and_drain
      [StreamEvent.arrive ⟨ChunkType.stdout, "a"⟩, StreamEvent.waitDone 7,
        StreamEvent.consume, StreamEvent.consume] 7 (GenState.mk [] true 7 [] none)).1
      (by decide),
    (streaming_ends_after_wait_and_drain
      [StreamEvent.arrive ⟨ChunkType.stdout, "a"⟩, StreamEvent.waitDone 7,
        StreamEvent.consume, StreamEvent.consume] 7 (GenState.mk [] true 7 [] none)).2
      rfl (by decide)⟩

/-- C2: the chunk bridge behaves as a single-consumer FIFO: a consume
step on a non-empty queue immediately pops and yields the oldest chunk;
on an empty queue with the completion signal fired it ends the
sequence; on an empty queue without completion it changes nothing (the
generator suspends on `resolveWaiting` until the next arrival or
completion wakes it); and globally the chunks yielded so far followed
by the pending queue are exactly the chunks in arrival order, so
chunks are yielded in exactly their arrival order. -/
theorem streaming_fifo_bridge (events : List StreamEvent) (s : GenState)
    (c : StreamChunk) (rest : List StreamChunk) :
    (s.returned = none → s.chunkQueue = c :: rest →
        streamingStep s .consume
          = { s with chunkQueue := rest, yielded := s.yielded ++ [c] })
    ∧ (s.returned = none → s.chunkQueue = [] → s.streamEnded = true →
        streamingStep s .consume = { s with returned := some s.exitCode })
    ∧ (s.returned = none → s.chunkQueue = [] → s.streamEnded = false →
        streamingStep s .consume = s)
    ∧ (runStreaming events).yielded ++ (runStreaming events).chunkQueue
        = arrivals events := by
  refine ⟨?_, ?_, ?_, ?_⟩
  · intro hr hq
    simp [streamingStep, hr, hq]
  · intro hr hq he
    simp [streamingStep, hr, hq, he]
  · intro hr hq he
    simp [streamingStep, hr, hq, he]
  · have := foldl_step_fifo events GenState.init
    simpa [runStreaming, GenState.init] using this

/-- Witness for C2 on concrete states: a pop from a two-chunk queue, an
end-of-sequence step, a suspension step, and the FIFO equation on a
concrete interleaving of two arrivals. -/
theorem streaming_fifo_bridge_witness :
    (streamingStep (GenState.mk [⟨ChunkType.stdout, "a"⟩, ⟨ChunkType.stderr, "b"⟩]
          false 0 [] none) .consume
        = GenState.mk [⟨ChunkType.stderr, "b"⟩] false 0 [⟨ChunkType.stdout, "a"⟩] none)
    ∧ (streamingStep (GenState.mk [] true 5 [] none) .consume
        = GenState.mk [] true 5 [] (some 5))
    ∧ (streamingStep (GenState.mk [] false 0 [] none) .consume
        = GenState.mk [] false 0 [] none)
    ∧ (runStreaming [StreamEvent.arrive ⟨ChunkType.stdout, "a"⟩, StreamEvent.consume,
          StreamEvent.arrive ⟨ChunkType.stderr, "b"⟩]).yielded
        ++ (runStreaming [StreamEvent.arrive ⟨ChunkType.stdout, "a"⟩, StreamEvent.consume,
          StreamEvent.arrive ⟨ChunkType.stderr, "b"⟩]).chunkQueue
        = arrivals [StreamEvent.arrive ⟨ChunkType.stdout, "a"⟩, StreamEvent.consume,
          StreamEvent.arrive ⟨ChunkType.stderr, "b"⟩] := by
  have h := streaming_fifo_bridge
    [StreamEvent.arrive ⟨ChunkType.stdout, "a"⟩, StreamEvent.consume,
      StreamEvent.arrive ⟨ChunkType.stderr, "b"⟩]
    (GenState.mk [⟨ChunkType.stdout, "a"⟩, ⟨ChunkType.stderr, "b"⟩] false 0 [] none)
    ⟨ChunkType.stdout, "a"⟩ [⟨ChunkType.stderr, "b"⟩]
  have h2 := streaming_fifo_bridge
    [StreamEvent.arrive ⟨ChunkType.stdout, "a"⟩, StreamEvent.consume,
      StreamEvent.arrive ⟨ChunkType.stderr, "b"⟩]
    (GenState.mk [] true 5 [] none) ⟨ChunkType.stdout, "a"⟩ []
  have h3 := streaming_fifo_bridge
    [StreamEvent.arrive ⟨ChunkType.stdout, "a"⟩, StreamEvent.consume,
      StreamEvent.arrive ⟨ChunkType.stderr, "b"⟩]
    (GenState.mk [] false 0 [] none) ⟨ChunkType.stdout, "a"⟩ []
  exact ⟨h.1 rfl rfl, h2.2.1 rfl rfl rfl, h3.2.2.1 rfl rfl rfl, h.2.2.2⟩

/-- C3: refinement between the two execution modes: for the same
delivered chunk sequence, a streaming run that has finished with an
empty queue yields chunks whose stdout-tagged concatenation equals the
`stdout` field of the buffered run's `CommandResult`, and likewise for
stderr; the buffered exit code also matches the streaming return
value. -/
theorem streaming_matches_buffered (events : List StreamEvent) (c : Int) :
    (runStreaming events).returned = some c →
    (runStreaming events).chunkQueue = [] →
    concatChunks .stdout (runStreaming events).yielded
        = (runCommandResult (arrivals events) c).stdout
    ∧ concatChunks .stderr (runStreaming events).yielded
        = (runCommandResult (arrivals events) c).stderr
    ∧ (runCommandResult (arrivals events) c).exitCode = c := by
  intro _ hq
  have hfifo := foldl_step_fifo events GenState.init
  have hyield : (runStreaming events).yielded = arrivals events := by
    have : (runStreaming events).yielded ++ (runStreaming events).chunkQueue
        = arrivals events := by
      simpa [runStreaming, GenState.init] using hfifo
    simpa [hq] using this
  have haccum := accumOutput_eq_concat (arrivals events)
  refine ⟨?_, ?_, rfl⟩
  · rw [hyield]
    simp [runCommandResult, haccum]
  · rw [hyield]
    simp [runCommandResult, haccum]

/-- Witness for C3 on the spec's example: two stdout lines delivered,
exit code 0; both modes reproduce the same two lines. -/
theorem streaming_matches_buffered_witness :
    concatChunks .stdout (runStreaming [StreamEvent.arrive ⟨ChunkType.stdout, "line1\n"⟩,
          StreamEvent.consume, StreamEvent.arrive ⟨ChunkType.stdout, "line2\n"⟩,
          StreamEvent.waitDone 0, StreamEvent.consume, StreamEvent.consume]).yielded
        = (runCommandResult (arrivals [StreamEvent.arrive ⟨ChunkType.stdout, "line1\n"⟩,
          StreamEvent.consume, StreamEvent.arrive ⟨ChunkType.stdout, "line2\n"⟩,
          StreamEvent.waitDone 0, StreamEvent.consume, StreamEvent.consume]) 0).stdout
    ∧ concatChunks .stderr (runStreaming [StreamEvent.arrive ⟨ChunkType.stdout, "line1\n"⟩,
          StreamEvent.consume, StreamEvent.arrive ⟨ChunkType.stdout, "line2\n"⟩,
          StreamEvent.waitDone 0, StreamEvent.consume, StreamEvent.consume]).yielded
        = (runCommandResult (arrivals [StreamEvent.arrive ⟨ChunkType.stdout, "line1\n"⟩,
          StreamEvent.consume, StreamEvent.arrive ⟨ChunkType.stdout, "line2\n"⟩,
          StreamEvent.waitDone 0, StreamEvent.consume, StreamEvent.consume]) 0).stderr
    ∧ (runCommandResult (arrivals [StreamEvent.arrive ⟨ChunkType.stdout, "line1\n"⟩,
          StreamEvent.consume, StreamEvent.arrive ⟨ChunkType.stdout, "line2\n"⟩,
          StreamEvent.waitDone 0, StreamEvent.consume, StreamEvent.consume]) 0).exitCode = 0 := by
  exact streaming_matches_buffered
    [StreamEvent.arrive ⟨ChunkType.stdout, "line1\n"⟩, StreamEvent.consume,
      StreamEvent.arrive ⟨ChunkType.stdout, "line2\n"⟩, StreamEvent.waitDone 0,
      StreamEvent.consume, StreamEvent.consume] 0 (by decide) (by decide)

/-- Helper for C4: the value-level validity test the source applies to
the `status` field (`typeof ... === 'string'` and membership in
`VALID_STATUSES`). -/
def statusValueValid (v : Json) : Bool :=
  match v with
  | .str s => validStatusString s
  | _ => false

/-- C4: `parseStatusFile` accepts exactly the documents whose parse
succeeded, are objects, carry a `status` field, and whose `status` is
the string `success` or `failure`; each rejected document produces the
error message of the first failed condition: the JSON error for a
failed parse, the object error for a non-object document, the
missing-field error when `status` is absent, and the invalid-value
error naming the offending value otherwise. -/
theorem parseStatusFile_accepts_iff (parsed : Option Json) (jsonErrMsg : String)
    (p : Json) (v : Json) :
    ((parseStatusFile parsed jsonErrMsg).isOk = statusFileAccepted parsed)
    ∧ (parseStatusFile none jsonErrMsg
        = .error ("Invalid JSON in status file: " ++ jsonErrMsg))
    ∧ ((jsTypeofObject p = false ∨ p.isNull = true) →
        parseStatusFile (some p) jsonErrMsg
          = .error "Status file must contain a JSON object")
    ∧ (jsTypeofObject p = true → p.isNull = false → jsGetField p "status" = none →
        parseStatusFile (some p) jsonErrMsg
          = .error "Status file missing required \"status\" field")
    ∧ (jsTypeofObject p = true → p.isNull = false → jsGetField p "status" = some v →
        statusValueValid v = false →
        parseStatusFile (some p) jsonErrMsg = .error (invalidStatusMsg v)) := by
  refine ⟨?_, rfl, ?_, ?_, ?_⟩
  · cases parsed with
    | none => simp [parseStatusFile, statusFileAccepted, Except.isOk, Except.toBool]
    | some q =>
      by_cases hT : jsTypeofObject q = true
      · by_cases hN : q.isNull = true
        · simp [parseStatusFile, statusFileAccepted, Except.isOk, Except.toBool, hT, hN]
        · have hN' : q.isNull = false := by
            cases h : q.isNull
            · rfl
            · exact absurd h hN
          cases hG : jsGetField q "status" with
          | none => simp [parseStatusFile, statusFileAccepted, Except.isOk, Except.toBool, hT, hN', hG]
          | some w =>
            cases w with
            | str s =>
              by_cases hV : validStatusString s = true
              · simp [parseStatusFile, statusFileAccepted, Except.isOk, Except.toBool, hT, hN', hG, hV]
              · have hV' : validStatusString s = false := by
                  cases h : validStatusString s
                  · rfl
                  · exact absurd h hV
                simp [parseStatusFile, statusFileAccepted, Except.isOk, Except.toBool, hT, hN', hG, hV']
            | null => simp [parseStatusFile, statusFileAccepted, Except.isOk, Except.toBool, hT, hN', hG]
            | bool b => simp [parseStatusFile, statusFileAccepted, Except.isOk, Except.toBool, hT, hN', hG]
            | num n => simp [parseStatusFile, statusFileAccepted, Except.isOk, Except.toBool, hT, hN', hG]
            | arr es => simp [parseStatusFile, statusFileAccepted, Except.isOk, Except.toBool, hT, hN', hG]
            | obj fs => simp [parseStatusFile, statusFileAccepted, Except.isOk, Except.toBool, hT, hN', hG]
      · have hT' : jsTypeofObject q = false := by
          cases h : jsTypeofObject q
          · rfl
          · exact absurd h hT
        simp [parseStatusFile, statusFileAccepted, Except.isOk, Except.toBool, hT']
  · rintro (hT | hN)
    · simp [parseStatusFile, hT]
    · simp [parseStatusFile, hN]
  · intro hT hN hG
    simp [parseStatusFile, hT, hN, hG]
  · intro hT hN hG hV
    cases v with
    | str s =>
      have : validStatusString s = false := by simpa [statusValueValid] using hV
      simp [parseStatusFile, hT, hN, hG, this]
    | null => simp [parseStatusFile, hT, hN, hG]
    | bool b => simp [parseStatusFile, hT, hN, hG]
    | num n => simp [parseStatusFile, hT, hN, hG]
    | arr es => simp [parseStatusFile, hT, hN, hG]
    | obj fs => simp [parseStatusFile, hT, hN, hG]

/-- Witness for C4 on concrete documents: a well-formed success
document is accepted; a non-object document, a document without a
`status` field, and a document with an unexpected `status` value each
produce their identifying error. -/
theorem parseStatusFile_accepts_iff_witness :
    ((parseStatusFile (some (Json.obj [("status", Json.str "success")])) "m").isOk
        = statusFileAccepted (some (Json.obj [("status", Json.str "success")])))
    ∧ (parseStatusFile none "Unexpected token"
        = .error ("Invalid JSON in status file: " ++ "Unexpected token"))
    ∧ (parseStatusFile (some (Json.num 5)) "m"
        = .error "Status file must contain a JSON object")
    ∧ (parseStatusFile (some (Json.obj [("other", Json.str "x")])) "m"
        = .error "Status file missing required \"status\" field")
    ∧ (parseStatusFile (some (Json.obj [("status", Json.str "ok")])) "m"
        = .error (invalidStatusMsg (Json.str "ok"))) := by
  refine ⟨(parseStatusFile_accepts_iff (some (Json.obj [("status", Json.str "success")]))
      "m" (Json.num 5) (Json.str "ok")).1,
    (parseStatusFile_accepts_iff none "Unexpected token" (Json.num 5) (Json.str "ok")).2.1,
    (parseStatusFile_accepts_iff (some (Json.num 5)) "m" (Json.num 5)
      (Json.str "ok")).2.2.1 (Or.inl rfl),
    (parseStatusFile_accepts_iff (some (Json.obj [("other", Json.str "x")])) "m"
      (Json.obj [("other", Json.str "x")]) (Json.str "ok")).2.2.2.1 rfl rfl rfl,
    (parseStatusFile_accepts_iff (some (Json.obj [("status", Json.str "ok")])) "m"
      (Json.obj [("status", Json.str "ok")]) (Json.str "ok")).2.2.2.2 rfl rfl rfl rfl⟩

/-- C5: when the container has exited and no status file exists,
`runSingleTest` returns (does not throw) a failure-status result
carrying the specific "no status file" message. -/
theorem runSingleTest_no_status_file (durationMs : Nat) :
    runSingleTestOutcome none durationMs
      = .ok { status := .failure, error := some noStatusFileError
              durationMs := durationMs } := rfl

/-- C6: once the wait step has been reached, cleanup is best-effort in
both modes: with retention requested no removal happens and the
captured result is returned; without retention a removal is attempted
and the result is returned whether or not the removal fails — removal
errors never escalate. -/
theorem cleanup_best_effort (keepContainer : Bool) (removeResult : Except String Unit)
    (result : CommandResult) (statusCode : Int) :
    finishRunCommand keepContainer removeResult result = (.ok result, !keepContainer)
    ∧ finishRunCommandStreaming keepContainer removeResult statusCode
        = (.ok statusCode, !keepContainer) := by
  cases keepContainer with
  | true =>
    constructor
    · simp [finishRunCommand]
    · simp [finishRunCommandStreaming]
  | false =>
    cases removeResult with
    | ok u =>
      constructor
      · simp [finishRunCommand, tryRemoveIgnoringErrors]
      · simp [finishRunCommandStreaming, tryRemoveIgnoringErrors]
    | error e =>
      constructor
      · simp [finishRunCommand, tryRemoveIgnoringErrors]
      · simp [finishRunCommandStreaming, tryRemoveIgnoringErrors]

/-- C7 is violated by the code: `runSingleTest` mounts the working
directory at the fixed container path `/workspace`, so for an ordinary
working directory the mount's host path differs from its container
path, contradicting the identical-absolute-path convention the spec
and the runner documentation state. -/
theorem runSingleTest_mount_path_divergence :
    mountsHostEqualsContainer (runSingleTestMounts "/home/user/project") = false
    ∧ runSingleTestMounts "/home/user/project"
        = [{ hostPath := "/home/user/project", containerPath := "/workspace" }] := by
  constructor
  · decide
  · rfl

/-- Witness for C6 needs no separate theorem (no hypotheses); instead,
here are C8's definitions exercised.  C8: with both an API key and a
session file present, `getAuthMethod` deterministically selects the API
key unless `preferSession` is set, in which case it selects the session
file, advising `hasBoth` in either case; and `getAuthConfig` yields
either an environment carrying the API key with no session file to
copy, or an empty environment with the session file to copy — never
both sources, for every successfully configured method. -/
theorem auth_selection_exclusive (apiKeyVal sessionPath : String)
    (m : AuthMethod) (cfg : AuthConfig) (b : Bool) :
    (apiKeyVal.isEmpty = false → sessionPath.isEmpty = false →
      getAuthMethod false (some apiKeyVal) (some sessionPath)
          = .apiKey apiKeyVal true
      ∧ getAuthMethod true (some apiKeyVal) (some sessionPath)
          = .session sessionPath true)
    ∧ getAuthConfig (.apiKey apiKeyVal b)
        = .ok { env := [("ANTHROPIC_API_KEY", apiKeyVal)], sessionFileToCopy := none }
    ∧ getAuthConfig (.session sessionPath b)
        = .ok { env := [], sessionFileToCopy := some sessionPath }
    ∧ (getAuthConfig m = .ok cfg →
        (cfg.env.isEmpty != cfg.sessionFileToCopy.isNone) = true) := by
  refine ⟨?_, rfl, rfl, ?_⟩
  · intro hk hs
    constructor
    · simp [getAuthMethod, jsTruthy, hk, hs]
    · simp [getAuthMethod, jsTruthy, hk, hs]
  · intro hcfg
    cases m with
    | apiKey k hb =>
      have : cfg = { env := [("ANTHROPIC_API_KEY", k)], sessionFileToCopy := none } := by
        simpa [getAuthConfig] using hcfg.symm
      simp [this]
    | session sf hb =>
      have : cfg = { env := [], sessionFileToCopy := some sf } := by
        simpa [getAuthConfig] using hcfg.symm
      simp [this]
    | noAuth => simp [getAuthConfig] at hcfg

/-- Witness for C8 at a concrete environment: key `k`, session file
`/home/u/.claude/.claude.json`, both present. -/
theorem auth_selection_exclusive_witness :
    (getAuthMethod false (some "k") (some "/home/u/.claude/.claude.json")
        = .apiKey "k" true
      ∧ getAuthMethod true (some "k") (some "/home/u/.claude/.claude.json")
        = .session "/home/u/.claude/.claude.json" true)
    ∧ getAuthConfig (.apiKey "k" false)
        = .ok { env := [("ANTHROPIC_API_KEY", "k")], sessionFileToCopy := none }
    ∧ getAuthConfig (.session "/home/u/.claude/.claude.json" false)
        = .ok { env := [], sessionFileToCopy := some "/home/u/.claude/.claude.json" }
    ∧ ((AuthConfig.mk [("ANTHROPIC_API_KEY", "k")] none).env.isEmpty
        != (AuthConfig.mk [("ANTHROPIC_API_KEY", "k")] none).sessionFileToCopy.isNone)
        = true := by
  have h := auth_selection_exclusive "k" "/home/u/.claude/.claude.json"
    (.apiKey "k" false) (AuthConfig.mk [("ANTHROPIC_API_KEY", "k")] none) false
  exact ⟨h.1 (by decide) (by decide), h.2.1, h.2.2.1, h.2.2.2 rfl⟩

/-- C9: in both execution modes, the bind list passed to container
creation has the host Docker socket mapping as its first entry,
followed by the caller's mounts in order: entry `i + 1` is the bind
string of the caller's mount `i`. -/
theorem binds_socket_first (mounts : List MountConfig) (i : Nat) :
    buildBinds mounts = dockerSocketBind :: mounts.map bindOfMount
    ∧ buildBindsStreaming mounts = dockerSocketBind :: mounts.map bindOfMount
    ∧ (buildBinds mounts).head? = some "/var/run/docker.sock:/var/run/docker.sock"
    ∧ (buildBinds mounts).get? (i + 1) = (mounts.get? i).map bindOfMount := by
  refine ⟨rfl, rfl, rfl, ?_⟩
  simp [buildBinds, List.getElem?_map]

/-- C10: every report `runTests` returns satisfies
`passed + failed = totalTests = results.length`, every result's status
is `success` or `failure`, and in dry-run mode every discovered test is
reported with status `success` and `durationMs` 0, making `failed`
zero. -/
theorem runTests_report_invariants (tests : List (String × TestOutcome))
    (dryRun : Bool) (totalDurationMs : Nat) :
    (runTests tests dryRun totalDurationMs).passed
        + (runTests tests dryRun totalDurationMs).failed
      = (runTests tests dryRun totalDurationMs).totalTests
    ∧ (runTests tests dryRun totalDurationMs).totalTests
      = (runTests tests dryRun totalDurationMs).results.length
    ∧ ((runTests tests dryRun totalDurationMs).results.all
        (fun r => countsPassed r || countsFailed r)) = true
    ∧ (dryRun = true →
        (runTests tests dryRun totalDurationMs).failed = 0
        ∧ ((runTests tests dryRun totalDurationMs).results.all isDryRunRow) = true) := by
  have hsplit : ∀ l : List TestResult,
      (l.filter countsPassed).length + (l.filter countsFailed).length = l.length := by
    intro l
    induction l with
    | nil => simp
    | cons r t ih =>
      have hcases : countsPassed r = true ∧ countsFailed r = false
          ∨ countsPassed r = false ∧ countsFailed r = true := by
        cases hst : r.status with
        | success => exact Or.inl (by simp [countsPassed, countsFailed, hst])
        | failure => exact Or.inr (by simp [countsPassed, countsFailed, hst])
      rcases hcases with ⟨h1, h2⟩ | ⟨h1, h2⟩
      · simp only [List.filter, h1, h2]
        simp only [List.length_cons]
        omega
      · simp only [List.filter, h1, h2]
        simp only [List.length_cons]
        omega
  cases dryRun with
  | true =>
    refine ⟨by simp [runTests], by simp [runTests], ?_, ?_⟩
    · simp only [runTests, if_true]
      rw [List.all_eq_true]
      intro r hr
      rcases List.mem_map.mp hr with ⟨t, _, rfl⟩
      simp [dryRunResult, countsPassed]
    · intro _
      refine ⟨by simp [runTests], ?_⟩
      simp only [runTests, if_true]
      rw [List.all_eq_true]
      intro r hr
      rcases List.mem_map.mp hr with ⟨t, _, rfl⟩
      simp [dryRunResult, isDryRunRow]
  | false =>
    refine ⟨?_, by simp [runTests], ?_, by intro h; exact absurd h (by simp)⟩
    · simp only [runTests, Bool.false_eq_true, if_false]
      rw [hsplit]
      simp
    · simp only [runTests, Bool.false_eq_true, if_false]
      rw [List.all_eq_true]
      intro r hr
      rcases List.mem_map.mp hr with ⟨t, _, rfl⟩
      cases t.2 with
      | ok u =>
        cases hst : u.status with
        | success => simp [resultOfOutcome, countsPassed, hst]
        | failure => simp [resultOfOutcome, countsFailed, hst]
      | error e => simp [resultOfOutcome, countsFailed]

/-- Witness for C10 on a concrete dry run over two discovered tests. -/
theorem runTests_report_invariants_witness :
    (runTests [("t1.md", Except.ok ⟨TestStatus.success, none, 5⟩),
        ("t2.md", Except.error ("boom", 3))] true 9).passed
        + (runTests [("t1.md", Except.ok ⟨TestStatus.success, none, 5⟩),
        ("t2.md", Except.error ("boom", 3))] true 9).failed
      = (runTests [("t1.md", Except.ok ⟨TestStatus.success, none, 5⟩),
        ("t2.md", Except.error ("boom", 3))] true 9).totalTests
    ∧ (runTests [("t1.md", Except.ok ⟨TestStatus.success, none, 5⟩),
        ("t2.md", Except.error ("boom", 3))] true 9).totalTests
      = (runTests [("t1.md", Except.ok ⟨TestStatus.success, none, 5⟩),
        ("t2.md", Except.error ("boom", 3))] true 9).results.length
    ∧ ((runTests [("t1.md", Except.ok ⟨TestStatus.success, none, 5⟩),
        ("t2.md", Except.error ("boom", 3))] true 9).results.all
        (fun r => countsPassed r || countsFailed r)) = true
    ∧ ((runTests [("t1.md", Except.ok ⟨TestStatus.success, none, 5⟩),
        ("t2.md", Except.error ("boom", 3))] true 9).failed = 0
      ∧ ((runTests [("t1.md", Except.ok ⟨TestStatus.success, none, 5⟩),
        ("t2.md", Except.error ("boom", 3))] true 9).results.all isDryRunRow) = true) := by
  have h := runTests_report_invariants
    [("t1.md", Except.ok ⟨TestStatus.success, none, 5⟩), ("t2.md", Except.error ("boom", 3))]
    true 9
  exact ⟨h.1, h.2.1, h.2.2.1, h.2.2.2 rfl⟩
